import Mathlib

/-!
Verification of the Rate-Limited Messaging Dispatch & Auto-Reply Engine
(`src/services/WhatsAppManager.js`, `src/services/SchedulerService.js`).

The JavaScript code is shallowly embedded: JS strings become `List Char`
(with executable models of `toLowerCase`, `includes`, `startsWith`,
`endsWith`, `trim`, `split`), the relevant Postgres tables become Lean
lists of rows, and each `async` method becomes a pure function that takes
the table state and returns the updated state together with the returned
value (`Except` for methods that can throw).  External collaborators
(the WhatsApp transport, the AI provider, the storage layer's failure
behaviour) enter as explicit parameters: a `Bool` for connectivity, an
outcome value for the provider, a fault selector for storage errors.
-/

namespace Waaii

/-- Decidable equality for `Except`, so concrete runs of the fallible
operations can be checked by `decide`. -/
instance {ε α : Type} [DecidableEq ε] [DecidableEq α] :
    DecidableEq (Except ε α) := fun a b =>
  match a, b with
  | .ok x, .ok y =>
    if h : x = y then isTrue (by rw [h]) else isFalse (by simpa using h)
  | .error x, .error y =>
    if h : x = y then isTrue (by rw [h]) else isFalse (by simpa using h)
  | .ok _, .error _ => isFalse (by simp)
  | .error _, .ok _ => isFalse (by simp)

/-! ## JS string primitives over `List Char`

JS `String.prototype` operations used by the engine, modelled over the
character list of the string. -/

/-- JS `toLowerCase` on one character (ASCII range, which is all the
engine's triggers and bodies use). -/
def charLower (c : Char) : Char :=
  if 'A' ≤ c ∧ c ≤ 'Z' then Char.ofNat (c.toNat + 32) else c

/-- JS `s.toLowerCase()`. -/
def jsToLower (s : List Char) : List Char := s.map charLower

/-- JS `s.startsWith(pre)`. -/
def jsStartsWith : List Char → List Char → Bool
  | _, [] => true
  | [], _ :: _ => false
  | h :: hs, p :: ps => h == p && jsStartsWith hs ps

/-- JS `s.endsWith(suf)`. -/
def jsEndsWith (hay suf : List Char) : Bool :=
  jsStartsWith hay.reverse suf.reverse

/-- JS `s.includes(needle)`. -/
def jsIncludes : List Char → List Char → Bool
  | [], needle => needle.isEmpty
  | h :: t, needle => jsStartsWith (h :: t) needle || jsIncludes t needle

/-- JS whitespace test used by `trim`. -/
def jsIsWS (c : Char) : Bool := c == ' ' || c == '\t' || c == '\n' || c == '\r'

/-- JS `s.trim()`. -/
def jsTrim (s : List Char) : List Char :=
  ((s.dropWhile jsIsWS).reverse.dropWhile jsIsWS).reverse

/-- JS `s.split(sep)` for a one-character separator. -/
def jsSplit (sep : Char) : List Char → List (List Char)
  | [] => [[]]
  | c :: cs =>
    let r := jsSplit sep cs
    if c == sep then [] :: r
    else
      match r with
      | [] => [[c]]
      | h :: t => (c :: h) :: t

/-- Shorthand: the character list of a Lean string literal. -/
def str (s : String) : List Char := s.toList

/-! ## Data model: `user_settings` and `daily_usage`

Mirrors the `user_settings` row used by `getUserSettings` and the
`daily_usage` table (`UNIQUE(user_id, device_id, date)`, counters default
0) used by `checkAndUpdateUsage` and `sendBroadcast`. -/

structure UserSettings where
  dailyMessageLimit : Nat
  messageDelaySeconds : Nat
  broadcastDelaySeconds : Nat
  autoReplyDelaySeconds : Nat
  maxBroadcastRecipients : Nat
  enableRateLimiting : Bool
deriving DecidableEq, Repr

structure UsageRow where
  userId : Nat
  deviceId : Nat
  date : String
  messagesSent : Nat
  broadcastsSent : Nat
  autoRepliesSent : Nat
deriving DecidableEq, Repr

/-- The row key of the `UNIQUE(user_id, device_id, date)` constraint. -/
def usageKey (u d : Nat) (date : String) (r : UsageRow) : Bool :=
  r.userId == u && r.deviceId == d && r.date == date

/-- Rows of the user for a date, across all devices (the `WHERE user_id =
$1 AND date = $2` filter of the aggregate query). -/
def userDateRows (tbl : List UsageRow) (u : Nat) (date : String) : List UsageRow :=
  tbl.filter (fun r => r.userId == u && r.date == date)

/-- Model of `COALESCE(SUM(messages_sent), 0)` over the user's rows for a date. -/
def sumMessages (tbl : List UsageRow) (u : Nat) (date : String) : Nat :=
  ((userDateRows tbl u date).map (·.messagesSent)).sum

/-- Model of `COALESCE(SUM(broadcasts_sent), 0)` over the user's rows for a date. -/
def sumBroadcasts (tbl : List UsageRow) (u : Nat) (date : String) : Nat :=
  ((userDateRows tbl u date).map (·.broadcastsSent)).sum

/-- Model of `totalSent = parseInt(total_messages) + parseInt(total_broadcasts)`:
the user's aggregate for a date, across devices. -/
def usageTotal (tbl : List UsageRow) (u : Nat) (date : String) : Nat :=
  sumMessages tbl u date + sumBroadcasts tbl u date

/-- Model of `INSERT INTO daily_usage ... ON CONFLICT (user_id, device_id, date) DO
NOTHING`: create the day's row lazily with zero counters. -/
def ensureUsageRow (tbl : List UsageRow) (u d : Nat) (date : String) : List UsageRow :=
  if tbl.any (usageKey u d date) then tbl
  else tbl ++ [⟨u, d, date, 0, 0, 0⟩]

/-- The usage kind recorded by `checkAndUpdateUsage`'s `type` argument. -/
inductive UsageKind
  | message
  | broadcast
  | autoReply
deriving DecidableEq, Repr

/-- The counter column selected by
`type === 'broadcast' ? 'broadcasts_sent' : type === 'auto_reply' ?
'auto_replies_sent' : 'messages_sent'`. -/
def kindField : UsageKind → UsageRow → Nat
  | .message => (·.messagesSent)
  | .broadcast => (·.broadcastsSent)
  | .autoReply => (·.autoRepliesSent)

/-- Model of `UPDATE daily_usage SET <field> = <field> + 1 WHERE user_id AND
device_id AND date` applied to one row. -/
def bumpKind (kind : UsageKind) (r : UsageRow) : UsageRow :=
  match kind with
  | .message => { r with messagesSent := r.messagesSent + 1 }
  | .broadcast => { r with broadcastsSent := r.broadcastsSent + 1 }
  | .autoReply => { r with autoRepliesSent := r.autoRepliesSent + 1 }

/-- The increment `UPDATE` of `checkAndUpdateUsage`. -/
def incrementUsage (tbl : List UsageRow) (u d : Nat) (date : String)
    (kind : UsageKind) : List UsageRow :=
  tbl.map (fun r => if usageKey u d date r then bumpKind kind r else r)

/-- The per-key counter of one kind: the sum of the selected column over
the rows matching `(user, device, date)`.  Under the table's `UNIQUE`
constraint at most one row matches. -/
def kindCount (tbl : List UsageRow) (u d : Nat) (date : String)
    (kind : UsageKind) : Nat :=
  ((tbl.filter (usageKey u d date)).map (kindField kind)).sum

/-- The error thrown by `checkAndUpdateUsage` when the daily limit is
reached (`Daily message limit reached (limit)`). -/
inductive UsageError
  | quotaExceeded (limit : Nat)
deriving DecidableEq, Repr

/-- The object returned by `checkAndUpdateUsage` on the allow path. -/
structure UsageOutcome where
  allowed : Bool
  remaining : Int
deriving DecidableEq, Repr

/-- Which of the three storage queries inside `checkAndUpdateUsage`
fails, if any.  A failing query throws; the surrounding `catch` turns any
error whose message is not the quota denial into the fail-open result
`{allowed: true, remaining: -1}`. -/
inductive StorageFault
  | healthy
  | onEnsure
  | onSelect
  | onUpdate
deriving DecidableEq, Repr

/-- Model of `WhatsAppManager.checkAndUpdateUsage(userId, deviceId, type)`.

Returns the final `daily_usage` table paired with the method's result:
`.ok` for a normal return, `.error` for the thrown quota denial.  The
steps, in source order: (1) `INSERT ... ON CONFLICT DO NOTHING` creating
today's row; (2) the aggregate `SELECT` of the user's totals across
devices; (3) the rate-limit check `totalSent >= daily_message_limit`
throwing `Daily message limit reached`; (4) the counter `UPDATE`.  The
`catch` rethrows the quota error and converts any other error into the
fail-open result, leaving whatever table state the failed run reached.

The allow path never returns the `remaining` its `return` expression
spells out: `totalSent` is a `const` block-scoped inside the
`if (settings.enable_rate_limiting)` block, so the `return` statement's
`settings.daily_message_limit - totalSent - 1` references it out of
scope, and (the file being a strict-mode ES module) throws a
`ReferenceError` after the `UPDATE` has run.  Its message does not
contain `Daily message limit`, so the `catch` turns every allow-path
return into the fail-open `{allowed: true, remaining: -1}` — with the
counter already incremented. -/
def checkAndUpdateUsage (settings : UserSettings) (tbl : List UsageRow)
    (u d : Nat) (date : String) (kind : UsageKind) (fault : StorageFault) :
    List UsageRow × Except UsageError UsageOutcome :=
  if fault = .onEnsure then (tbl, .ok ⟨true, -1⟩) else
  let tbl1 := ensureUsageRow tbl u d date
  if fault = .onSelect then (tbl1, .ok ⟨true, -1⟩) else
  let total := usageTotal tbl1 u date
  if settings.enableRateLimiting = true ∧ settings.dailyMessageLimit ≤ total then
    (tbl1, .error (.quotaExceeded settings.dailyMessageLimit))
  else if fault = .onUpdate then (tbl1, .ok ⟨true, -1⟩)
  else
    (incrementUsage tbl1 u d date kind, .ok ⟨true, -1⟩)

/-- Runs `n` back-to-back direct sends for one (user, device): each send calls
`checkAndUpdateUsage` with `type = 'message'` on healthy storage, the
table threading from call to call.  Returns the final table and the list
of per-call results. -/
def runSends (settings : UserSettings) (u d : Nat) (date : String) :
    Nat → List UsageRow × List (Except UsageError UsageOutcome)
  | 0 => ([], [])
  | n + 1 =>
    let p := runSends settings u d date n
    let c := checkAndUpdateUsage settings p.1 u d date .message .healthy
    (c.1, p.2 ++ [c.2])

/-! ## The race decomposition of `checkAndUpdateUsage`

`checkAndUpdateUsage` is a separate read (`SELECT` the aggregate) followed
by a separate write (the `UPDATE`), with an `await` boundary between
them.  Two concurrent calls for the same user can therefore interleave
as read / read / write / write.  `racePhase1` is everything up to and
including the aggregate `SELECT` (capturing the observed total),
`racePhase2` is the rate-limit check against the captured total followed
by the `UPDATE` (returning whether the call was allowed). -/

def racePhase1 (tbl : List UsageRow) (u d : Nat) (date : String) :
    List UsageRow × Nat :=
  let tbl1 := ensureUsageRow tbl u d date
  (tbl1, usageTotal tbl1 u date)

def racePhase2 (settings : UserSettings) (tbl : List UsageRow) (u d : Nat)
    (date : String) (kind : UsageKind) (observedTotal : Nat) :
    List UsageRow × Bool :=
  if settings.enableRateLimiting = true ∧
      settings.dailyMessageLimit ≤ observedTotal then
    (tbl, false)
  else
    (incrementUsage tbl u d date kind, true)

/-- Sequential composition of the two phases is exactly the healthy-path
method, witnessing that the phases partition its code. -/
theorem checkAndUpdateUsage_eq_phases (settings : UserSettings)
    (tbl : List UsageRow) (u d : Nat) (date : String) (kind : UsageKind) :
    checkAndUpdateUsage settings tbl u d date kind .healthy =
      (let p1 := racePhase1 tbl u d date
       let p2 := racePhase2 settings p1.1 u d date kind p1.2
       (p2.1,
        if p2.2 then .ok ⟨true, -1⟩
        else .error (.quotaExceeded settings.dailyMessageLimit))) := by
  simp only [checkAndUpdateUsage, racePhase1, racePhase2]
  split
  · simp_all
  · split
    · simp_all
    · split <;> simp_all

/-! ## Usage-ledger lemmas -/

/-- The lazily created row matches its own key. -/
theorem usageKey_self (u d : Nat) (date : String) :
    usageKey u d date ⟨u, d, date, 0, 0, 0⟩ = true := by
  simp [usageKey]

/-- The function `bumpKind` does not touch the key columns. -/
theorem usageKey_bumpKind (u d : Nat) (date : String) (kind : UsageKind)
    (r : UsageRow) :
    usageKey u d date (bumpKind kind r) = usageKey u d date r := by
  cases kind <;> rfl

/-- The function `bumpKind` adds exactly 1 to its own column. -/
theorem kindField_bumpKind_self (kind : UsageKind) (r : UsageRow) :
    kindField kind (bumpKind kind r) = kindField kind r + 1 := by
  cases kind <;> rfl

/-- The function `bumpKind` leaves the other columns alone. -/
theorem kindField_bumpKind_other (kind k : UsageKind) (r : UsageRow)
    (h : k ≠ kind) :
    kindField k (bumpKind kind r) = kindField k r := by
  cases kind <;> cases k <;> first | rfl | exact absurd rfl h

/-- Creating the day's zero row does not change the user's aggregate. -/
theorem usageTotal_ensure (tbl : List UsageRow) (u d : Nat) (date : String) :
    usageTotal (ensureUsageRow tbl u d date) u date = usageTotal tbl u date := by
  unfold ensureUsageRow
  split
  · rfl
  · simp [usageTotal, sumMessages, sumBroadcasts, userDateRows, List.filter_append]

/-- Creating the day's zero row does not change any per-key counter. -/
theorem kindCount_ensure (tbl : List UsageRow) (u d : Nat) (date : String)
    (kind : UsageKind) :
    kindCount (ensureUsageRow tbl u d date) u d date kind =
      kindCount tbl u d date kind := by
  unfold ensureUsageRow
  split
  · rfl
  · cases kind <;>
      simp [kindCount, kindField, List.filter_append, usageKey_self]

/-- The increment `UPDATE` adds 1 to the kind's counter for every row
matching the key (one row, under the `UNIQUE` constraint). -/
theorem kindCount_incrementUsage (tbl : List UsageRow) (u d : Nat)
    (date : String) (kind : UsageKind) :
    kindCount (incrementUsage tbl u d date kind) u d date kind =
      kindCount tbl u d date kind + (tbl.filter (usageKey u d date)).length := by
  induction tbl with
  | nil => rfl
  | cons r t ih =>
    by_cases h : usageKey u d date r = true
    · simp [incrementUsage, kindCount, List.filter_cons, h, usageKey_bumpKind,
        kindField_bumpKind_self] at ih ⊢
      omega
    · simp only [Bool.not_eq_true] at h
      simp [incrementUsage, kindCount, List.filter_cons, h, usageKey_bumpKind] at ih ⊢
      omega

/-- The increment `UPDATE` for one kind leaves the other kinds' counters
unchanged. -/
theorem kindCount_incrementUsage_other (tbl : List UsageRow) (u d : Nat)
    (date : String) (kind k : UsageKind) (hk : k ≠ kind) :
    kindCount (incrementUsage tbl u d date kind) u d date k =
      kindCount tbl u d date k := by
  induction tbl with
  | nil => rfl
  | cons r t ih =>
    by_cases h : usageKey u d date r = true
    · simp [incrementUsage, kindCount, List.filter_cons, h, usageKey_bumpKind,
        kindField_bumpKind_other kind k r hk] at ih ⊢
      omega
    · simp only [Bool.not_eq_true] at h
      simp [incrementUsage, kindCount, List.filter_cons, h, usageKey_bumpKind] at ih ⊢
      omega

/-- After the lazy insert, the key matches exactly one row (given the
`UNIQUE(user_id, device_id, date)` constraint on the incoming table). -/
theorem filter_ensure_length (tbl : List UsageRow) (u d : Nat) (date : String)
    (hkey : (tbl.filter (usageKey u d date)).length ≤ 1) :
    ((ensureUsageRow tbl u d date).filter (usageKey u d date)).length = 1 := by
  unfold ensureUsageRow
  split
  · rename_i h
    obtain ⟨r, hr, hkr⟩ := List.any_eq_true.mp h
    have : r ∈ tbl.filter (usageKey u d date) := List.mem_filter.mpr ⟨hr, hkr⟩
    have := List.length_pos.mpr (List.ne_nil_of_mem this)
    omega
  · rename_i h
    have hnil : tbl.filter (usageKey u d date) = [] := by
      rw [List.filter_eq_nil_iff]
      intro a ha
      simp only [List.any_eq_true, not_exists, not_and] at h
      exact fun hk => (h a ha) hk
    simp [List.filter_append, hnil, usageKey_self]

/-- The settings of the §8 quota scenario: `dailyMessageLimit = 5`,
rate limiting on. -/
def settings5 : UserSettings := ⟨5, 3, 5, 2, 100, true⟩

/-- On healthy storage with the quota not reached, the method updates
exactly the requested kind's counter by 1 and leaves the aggregate
logic as claimed — but the value it hands back is the fail-open
sentinel `{allowed: true, remaining: -1}`, because the `return`
expression's out-of-scope `totalSent` throws and the `catch` converts
it.  (`hkey` is the table's `UNIQUE(user_id, device_id, date)`
constraint.) -/
theorem checkAndUpdateUsage_allow (settings : UserSettings)
    (tbl : List UsageRow) (u d : Nat) (date : String) (kind : UsageKind)
    (hkey : (tbl.filter (usageKey u d date)).length ≤ 1)
    (hlt : ¬ (settings.enableRateLimiting = true ∧
      settings.dailyMessageLimit ≤ usageTotal tbl u date)) :
    (checkAndUpdateUsage settings tbl u d date kind .healthy).2 =
      .ok ⟨true, -1⟩ ∧
    (checkAndUpdateUsage settings tbl u d date kind .healthy).1 =
      incrementUsage (ensureUsageRow tbl u d date) u d date kind ∧
    kindCount (checkAndUpdateUsage settings tbl u d date kind .healthy).1
        u d date kind = kindCount tbl u d date kind + 1 ∧
    (∀ k, k ≠ kind →
      kindCount (checkAndUpdateUsage settings tbl u d date kind .healthy).1
          u d date k = kindCount tbl u d date k) := by
  have hens := usageTotal_ensure tbl u d date
  have hcond : ¬ (settings.enableRateLimiting = true ∧
      settings.dailyMessageLimit ≤
        usageTotal (ensureUsageRow tbl u d date) u date) := by
    rw [hens]; exact hlt
  have heq : checkAndUpdateUsage settings tbl u d date kind .healthy =
      (incrementUsage (ensureUsageRow tbl u d date) u d date kind,
       .ok ⟨true, -1⟩) := by
    simp [checkAndUpdateUsage, hcond]
  refine ⟨by rw [heq], by rw [heq], ?_, ?_⟩
  · rw [heq]
    have h1 := kindCount_incrementUsage (ensureUsageRow tbl u d date)
      u d date kind
    have h2 := kindCount_ensure tbl u d date kind
    have h3 := filter_ensure_length tbl u d date hkey
    simp only [h1, h2, h3]
  · intro k hk
    rw [heq]
    have h1 := kindCount_incrementUsage_other (ensureUsageRow tbl u d date)
      u d date kind k hk
    have h2 := kindCount_ensure tbl u d date k
    simp only [h1, h2]

/-- The deny path is unaffected by the scoping slip: with rate limiting
on and the aggregate at the limit, the quota error is thrown before the
`UPDATE` and before the broken `return`, so it propagates and no
counter moves. -/
theorem checkAndUpdateUsage_deny (settings : UserSettings)
    (tbl : List UsageRow) (u d : Nat) (date : String) (kind : UsageKind)
    (hrl : settings.enableRateLimiting = true)
    (hge : settings.dailyMessageLimit ≤ usageTotal tbl u date) :
    checkAndUpdateUsage settings tbl u d date kind .healthy =
      (ensureUsageRow tbl u d date,
       .error (.quotaExceeded settings.dailyMessageLimit)) ∧
    usageTotal (checkAndUpdateUsage settings tbl u d date kind .healthy).1
      u date = usageTotal tbl u date ∧
    (∀ k, kindCount (checkAndUpdateUsage settings tbl u d date kind .healthy).1
        u d date k = kindCount tbl u d date k) := by
  have hens := usageTotal_ensure tbl u d date
  have hge' : settings.dailyMessageLimit ≤
      usageTotal (ensureUsageRow tbl u d date) u date := by
    rw [hens]; exact hge
  have heq : checkAndUpdateUsage settings tbl u d date kind .healthy =
      (ensureUsageRow tbl u d date,
       .error (.quotaExceeded settings.dailyMessageLimit)) := by
    simp [checkAndUpdateUsage, hrl, hge']
  refine ⟨heq, ?_, ?_⟩
  · rw [heq]; exact hens
  · intro k; rw [heq]; exact kindCount_ensure tbl u d date k

/-- C1: the claim is the code's own visible intent (the `return`
literally spells `settings.daily_message_limit - totalSent - 1`), but a
scoping slip breaks it: `totalSent` is `const`-declared inside the
`if (settings.enable_rate_limiting)` block and referenced at the
`return` outside it, so every allow path throws a `ReferenceError`
after the counter `UPDATE` and the `catch` returns
`{allowed: true, remaining: -1}` instead.  Evaluated at the claim's own
scenario (`dailyMessageLimit = 5`): the 5th send is allowed and the
counter duly reaches 5, but the call returns `remaining = -1` where the
claim says `remaining = 0`; the 6th attempt still fails with
`QuotaExceeded`, whose throw happens while `totalSent` is in scope. -/
theorem quota_allow_path_scope_bug :
    (runSends settings5 1 1 "2026-01-01" 6).2.get? 4 =
      some (.ok ⟨true, -1⟩) ∧
    some (Except.ok (⟨true, -1⟩ : UsageOutcome)) ≠
      (some (Except.ok (⟨true, 0⟩ : UsageOutcome)) :
        Option (Except UsageError UsageOutcome)) ∧
    kindCount (runSends settings5 1 1 "2026-01-01" 5).1 1 1 "2026-01-01"
      UsageKind.message = 5 ∧
    usageTotal (runSends settings5 1 1 "2026-01-01" 5).1 1 "2026-01-01" = 5 ∧
    (runSends settings5 1 1 "2026-01-01" 6).2.get? 5 =
      some (.error (.quotaExceeded 5)) := by
  decide

/-- A `daily_usage` table at the quota boundary under `settings5`: the
user's aggregate is 4, so `remaining = 1`. -/
def tblRace : List UsageRow := [⟨1, 1, "2026-01-01", 4, 0, 0⟩]

/-- The read / read / write / write interleaving of two concurrent
`checkAndUpdateUsage` calls for the same user (devices 1 and 2): both
aggregate `SELECT`s execute before either rate-limit check and counter
`UPDATE`.  Nothing in the source serializes the two calls, so this
schedule is reachable.  Returns the final table and the two calls'
allowed flags. -/
def raceSchedule (settings : UserSettings) (tbl : List UsageRow)
    (date : String) : List UsageRow × Bool × Bool :=
  let a1 := racePhase1 tbl 1 1 date
  let b1 := racePhase1 a1.1 1 2 date
  let a2 := racePhase2 settings b1.1 1 1 date .message a1.2
  let b2 := racePhase2 settings a2.1 1 2 date .message b1.2
  (b2.1, a2.2, b2.2)

/-- C2: the claimed quota invariant fails on the code.  The
check-then-increment of `checkAndUpdateUsage` is a separate `SELECT`
followed by a separate `UPDATE` with no lock or conditional write, so
when two callers race at `remaining = 1` both observe `total = 4 < 5`,
both are allowed, and the (user, date) aggregate ends at 6, exceeding
`dailyMessageLimit = 5`. -/
theorem race_both_succeed :
    usageTotal tblRace 1 "2026-01-01" = 4 ∧
    (raceSchedule settings5 tblRace "2026-01-01").2.1 = true ∧
    (raceSchedule settings5 tblRace "2026-01-01").2.2 = true ∧
    usageTotal (raceSchedule settings5 tblRace "2026-01-01").1 1 "2026-01-01" = 6 ∧
    settings5.dailyMessageLimit <
      usageTotal (raceSchedule settings5 tblRace "2026-01-01").1 1 "2026-01-01" := by
  decide

/-- C9: any storage failure inside `checkAndUpdateUsage` other than the
quota denial is fail-open: the call returns `allowed = true` with the
sentinel `remaining = -1`, without incrementing any counter; the quota
denial itself is rethrown by the `catch`, never converted to fail-open. -/
theorem quota_fail_open (settings : UserSettings) (tbl : List UsageRow)
    (u d : Nat) (date : String) (kind : UsageKind) :
    checkAndUpdateUsage settings tbl u d date kind .onEnsure =
      (tbl, .ok ⟨true, -1⟩) ∧
    checkAndUpdateUsage settings tbl u d date kind .onSelect =
      (ensureUsageRow tbl u d date, .ok ⟨true, -1⟩) ∧
    (¬ (settings.enableRateLimiting = true ∧ settings.dailyMessageLimit ≤
        usageTotal (ensureUsageRow tbl u d date) u date) →
      checkAndUpdateUsage settings tbl u d date kind .onUpdate =
        (ensureUsageRow tbl u d date, .ok ⟨true, -1⟩)) ∧
    (∀ f : StorageFault, f ≠ .onEnsure → f ≠ .onSelect →
      (settings.enableRateLimiting = true ∧ settings.dailyMessageLimit ≤
        usageTotal (ensureUsageRow tbl u d date) u date) →
      checkAndUpdateUsage settings tbl u d date kind f =
        (ensureUsageRow tbl u d date,
         .error (.quotaExceeded settings.dailyMessageLimit))) := by
  refine ⟨rfl, rfl, ?_, ?_⟩
  · intro hcond
    simp [checkAndUpdateUsage, hcond]
  · intro f h1 h2 hcond
    cases f with
    | onEnsure => exact absurd rfl h1
    | onSelect => exact absurd rfl h2
    | healthy => simp [checkAndUpdateUsage, hcond]
    | onUpdate => simp [checkAndUpdateUsage, hcond]

/-- Witness for C9: with the aggregate `SELECT` failing, a send over
quota is still allowed with `remaining = -1`. -/
theorem quota_fail_open_witness :
    checkAndUpdateUsage settings5 [⟨1, 1, "2026-01-01", 9, 0, 0⟩] 1 1
        "2026-01-01" .message .onSelect =
      ([⟨1, 1, "2026-01-01", 9, 0, 0⟩], .ok ⟨true, -1⟩) := by
  have h := (quota_fail_open settings5 [⟨1, 1, "2026-01-01", 9, 0, 0⟩] 1 1
    "2026-01-01" .message).2.1
  exact h.trans (by decide)

/-! ## `sendBroadcast`

`WhatsAppManager.sendBroadcast(deviceId, recipients, message, options)`.
The owning user is resolved from the `devices` table; here the caller
passes `u` directly.  Each recipient's transport outcome (the
`sendMessage` call succeeding or throwing) is supplied by `sendOk`,
indexed by the loop position. -/

inductive BroadcastError
  | tooManyRecipients (maxAllowed : Nat)
  | insufficientQuota (remaining : Int) (required : Nat)
deriving DecidableEq, Repr

structure BroadcastResult where
  recipient : String
  success : Bool
deriving DecidableEq, Repr

/-- The per-success `INSERT INTO daily_usage ... ON CONFLICT ... DO
UPDATE SET broadcasts_sent = broadcasts_sent + 1` of the broadcast
loop. -/
def upsertBroadcastCount (tbl : List UsageRow) (u d : Nat) (date : String) :
    List UsageRow :=
  if tbl.any (usageKey u d date) then
    tbl.map (fun r =>
      if usageKey u d date r then
        { r with broadcastsSent := r.broadcastsSent + 1 }
      else r)
  else tbl ++ [⟨u, d, date, 0, 1, 0⟩]

/-- The `for (let i = 0; i < recipients.length; i++)` body of
`sendBroadcast`: try the send; on success record the result, bump the
broadcast counter, and — still inside the `try` — sleep
`broadcastDelaySeconds` when `i < recipients.length - 1`; on a thrown
error the `catch` records the failure and continues with the next
recipient (skipping the sleep, which sits inside the `try`).  Returns
the result rows in order, the final `daily_usage` table, and the number
of inter-message sleeps performed.  `n` is `recipients.length` of the
whole call. -/
def broadcastLoop (u d : Nat) (date : String) (sendOk : Nat → Bool)
    (n : Nat) :
    List UsageRow → List String → Nat →
      List BroadcastResult × List UsageRow × Nat
  | tbl, [], _ => ([], tbl, 0)
  | tbl, r :: rs, i =>
    if sendOk i then
      let rest := broadcastLoop u d date sendOk n
        (upsertBroadcastCount tbl u d date) rs (i + 1)
      (⟨r, true⟩ :: rest.1, rest.2.1, (if i < n - 1 then 1 else 0) + rest.2.2)
    else
      let rest := broadcastLoop u d date sendOk n tbl rs (i + 1)
      (⟨r, false⟩ :: rest.1, rest.2.1, rest.2.2)

/-- Model of `sendBroadcast`: the two pre-flight checks, then the sequential
loop.  Both pre-flight rejections are guarded by
`settings.enable_rate_limiting` in the source (`if
(settings.enable_rate_limiting && recipients.length > ...)`). -/
def sendBroadcast (settings : UserSettings) (tbl : List UsageRow)
    (u d : Nat) (date : String) (recipients : List String)
    (sendOk : Nat → Bool) :
    Except BroadcastError (List BroadcastResult × List UsageRow × Nat) :=
  if settings.enableRateLimiting = true ∧
      settings.maxBroadcastRecipients < recipients.length then
    .error (.tooManyRecipients settings.maxBroadcastRecipients)
  else if settings.enableRateLimiting = true ∧
      (settings.dailyMessageLimit : Int) - usageTotal tbl u date <
        (recipients.length : Int) then
    .error (.insufficientQuota
      ((settings.dailyMessageLimit : Int) - usageTotal tbl u date)
      recipients.length)
  else
    .ok (broadcastLoop u d date sendOk recipients.length tbl recipients 0)

/-- Rate limiting off, `max_broadcast_recipients = 1`. -/
def settingsNoRL : UserSettings := ⟨5, 3, 5, 2, 1, false⟩

/-- Rate limiting on, `max_broadcast_recipients = 1`. -/
def settingsCap : UserSettings := ⟨5, 3, 5, 2, 1, true⟩

/-- Large limits, rate limiting on. -/
def settingsBig : UserSettings := ⟨100, 3, 5, 2, 100, true⟩

/-- C4 counterexample: the recipient-cap rejection is not unconditional.
With rate limiting disabled and `max_broadcast_recipients = 1`, a
2-recipient broadcast is not rejected — both messages are sent. -/
theorem broadcast_cap_not_unconditional :
    settingsNoRL.maxBroadcastRecipients <
      (["111", "222"] : List String).length ∧
    sendBroadcast settingsNoRL [] 1 1 "2026-01-01" ["111", "222"]
        (fun _ => true) =
      .ok ([⟨"111", true⟩, ⟨"222", true⟩],
           [⟨1, 1, "2026-01-01", 0, 2, 0⟩], 1) := by
  decide

/-- C4 (amended): when rate limiting is enabled, a recipient list longer
than `maxBroadcastRecipients` is rejected with `TooManyRecipients`
before any send, and a list longer than the user's remaining daily quota
is rejected with `InsufficientQuota` before any send; with rate limiting
disabled neither pre-flight check applies. -/
theorem broadcast_preflight (settings : UserSettings) (tbl : List UsageRow)
    (u d : Nat) (date : String) (recipients : List String)
    (sendOk : Nat → Bool)
    (hrl : settings.enableRateLimiting = true) :
    (settings.maxBroadcastRecipients < recipients.length →
      sendBroadcast settings tbl u d date recipients sendOk =
        .error (.tooManyRecipients settings.maxBroadcastRecipients)) ∧
    (recipients.length ≤ settings.maxBroadcastRecipients →
      (settings.dailyMessageLimit : Int) - usageTotal tbl u date <
        (recipients.length : Int) →
      sendBroadcast settings tbl u d date recipients sendOk =
        .error (.insufficientQuota
          ((settings.dailyMessageLimit : Int) - usageTotal tbl u date)
          recipients.length)) := by
  constructor
  · intro hmax
    simp [sendBroadcast, hrl, hmax]
  · intro hmax hquota
    have hmax' : ¬ settings.maxBroadcastRecipients < recipients.length :=
      Nat.not_lt.mpr hmax
    simp [sendBroadcast, hmax', hrl, hquota]

/-- Witness for C4: a 2-recipient broadcast under a cap of 1 with rate
limiting on is rejected. -/
theorem broadcast_preflight_witness :
    sendBroadcast settingsCap [] 1 1 "2026-01-01" ["111", "222"]
        (fun _ => true) =
      .error (.tooManyRecipients 1) := by
  have h := (broadcast_preflight settingsCap [] 1 1 "2026-01-01"
    ["111", "222"] (fun _ => true) rfl).1 (by decide)
  exact h.trans (by decide)

/-- C5 counterexample: the inter-message sleep is skipped after a failed
attempt.  With 2 recipients whose first send throws, the loop performs 0
sleeps where the claim (sleep after every non-final attempt, success or
failure) requires 1; the failure is still recorded and the second
recipient is still attempted. -/
theorem broadcast_delay_skipped_on_failure :
    sendBroadcast settingsBig [] 1 1 "2026-01-01" ["111", "222"]
        (fun i => i != 0) =
      .ok ([⟨"111", false⟩, ⟨"222", true⟩],
           [⟨1, 1, "2026-01-01", 0, 1, 0⟩], 0) ∧
    (0 : Nat) ≠ (["111", "222"] : List String).length - 1 := by
  decide

/-- Each position of the broadcast result list is the corresponding
recipient, in input order, with that attempt's transport outcome —
failures do not abort the loop. -/
theorem broadcastLoop_results (u d : Nat) (date : String)
    (sendOk : Nat → Bool) (n : Nat) (recipients : List String)
    (tbl : List UsageRow) (i j : Nat) :
    (broadcastLoop u d date sendOk n tbl recipients i).1[j]? =
      recipients[j]?.map (fun r => ⟨r, sendOk (i + j)⟩) := by
  induction recipients generalizing tbl i j with
  | nil => simp [broadcastLoop]
  | cons r rs ih =>
    cases j with
    | zero => by_cases h : sendOk i = true <;> simp [broadcastLoop, h]
    | succ j =>
      have harith : i + 1 + j = i + (j + 1) := by omega
      by_cases h : sendOk i = true <;>
        simp [broadcastLoop, h, ih, harith]

/-- The number of sleeps the loop performs: one for each successful
attempt at a non-final position. -/
theorem broadcastLoop_delays (u d : Nat) (date : String)
    (sendOk : Nat → Bool) (n : Nat) (recipients : List String)
    (tbl : List UsageRow) (i : Nat) :
    (broadcastLoop u d date sendOk n tbl recipients i).2.2 =
      ((List.range recipients.length).map (fun k => i + k)).countP
        (fun m => sendOk m && decide (m < n - 1)) := by
  induction recipients generalizing tbl i with
  | nil => simp [broadcastLoop]
  | cons r rs ih =>
    have hrange : (List.range (rs.length + 1)).map (fun k => i + k) =
        i :: (List.range rs.length).map (fun k => (i + 1) + k) := by
      rw [List.range_succ_eq_map, List.map_cons, List.map_map]
      refine congrArg₂ _ (by omega) ?_
      exact List.map_congr_left fun k _ => by
        simp [Function.comp]; omega
    by_cases h : sendOk i = true <;> by_cases hd : i < n - 1
    all_goals simp [broadcastLoop, h, hd, hrange, List.countP_cons, ih]
    all_goals omega

/-- The loop produces one result row per recipient. -/
theorem broadcastLoop_length (u d : Nat) (date : String)
    (sendOk : Nat → Bool) (n : Nat) (recipients : List String)
    (tbl : List UsageRow) (i : Nat) :
    (broadcastLoop u d date sendOk n tbl recipients i).1.length =
      recipients.length := by
  induction recipients generalizing tbl i with
  | nil => rfl
  | cons r rs ih =>
    by_cases h : sendOk i = true <;> simp [broadcastLoop, h, ih]

/-- C5 (amended): within one broadcast invocation the recipients are
attempted strictly sequentially in input order, and a per-recipient
failure is recorded in place in the result array without aborting the
remaining recipients; the runner sleeps `broadcastDelaySeconds` once
after each successful non-final attempt — a failed attempt skips the
sleep (it sits inside the `try`), and the last recipient never sleeps —
so a 3-recipient broadcast with all sends succeeding performs exactly 2
sleeps. -/
theorem broadcast_pacing (u d : Nat) (date : String) (sendOk : Nat → Bool)
    (recipients : List String) (tbl : List UsageRow) :
    (broadcastLoop u d date sendOk recipients.length tbl recipients 0).1.length =
      recipients.length ∧
    (∀ j : Nat,
      (broadcastLoop u d date sendOk recipients.length tbl recipients 0).1[j]? =
        recipients[j]?.map (fun r => (⟨r, sendOk j⟩ : BroadcastResult))) ∧
    (broadcastLoop u d date sendOk recipients.length tbl recipients 0).2.2 =
      (List.range recipients.length).countP
        (fun m => sendOk m && decide (m < recipients.length - 1)) ∧
    (broadcastLoop 1 1 "2026-01-01" (fun _ => true) 3 [] ["a", "b", "c"] 0).2.2
      = 2 := by
  refine ⟨broadcastLoop_length u d date sendOk recipients.length recipients tbl 0,
    ?_, ?_, by decide⟩
  · intro j
    have h := broadcastLoop_results u d date sendOk recipients.length
      recipients tbl 0 j
    simpa using h
  · have h := broadcastLoop_delays u d date sendOk recipients.length
      recipients tbl 0
    simpa using h

/-! ## The auto-reply cascade

`handleIncomingMessage` runs `checkAutoReply` (keyword rules) and, only
when it returned `false`, `checkAIAutoReply` (AI fallback).  Message
bodies, senders and triggers are JS strings, embedded as `List Char`.
The rules list passed to `checkAutoReply` is the result set of
`SELECT * FROM auto_replies WHERE device_id = $1 AND is_active = true`
in the order the store delivers it: the query has no `ORDER BY`, and the
update and toggle routes rewrite `auto_replies` rows in place (which
relocates tuples), so the program constrains this order in no way — in
particular it is not guaranteed to be creation order.  `id` is the
row's `SERIAL` primary key, recording creation order. -/

structure AutoReplyRule where
  id : Nat
  triggerKeyword : List Char
  matchType : String
  replyMessage : String
  isActive : Bool
deriving DecidableEq, Repr

/-- The `switch (rule.match_type)` of `checkAutoReply`: compare the
lower-cased body against the lower-cased trigger; an unknown
`match_type` matches nothing (the switch has no default). -/
def ruleMatches (body : List Char) (r : AutoReplyRule) : Bool :=
  if r.matchType = "exact" then
    jsToLower body == jsToLower r.triggerKeyword
  else if r.matchType = "contains" then
    jsIncludes (jsToLower body) (jsToLower r.triggerKeyword)
  else if r.matchType = "starts_with" then
    jsStartsWith (jsToLower body) (jsToLower r.triggerKeyword)
  else if r.matchType = "ends_with" then
    jsEndsWith (jsToLower body) (jsToLower r.triggerKeyword)
  else false

/-- The `for (const rule of result.rows)` loop: the first rule whose
predicate is true, scanning in row order. -/
def firstMatch (body : List Char) : List AutoReplyRule → Option AutoReplyRule
  | [] => none
  | r :: rs => if ruleMatches body r then some r else firstMatch body rs

structure KeywordOutcome where
  replied : Bool
  sent : Option String
deriving DecidableEq, Repr

/-- Model of `WhatsAppManager.checkAutoReply(msg, deviceId)`: returns whether an
auto-reply was considered sent (the method's boolean), plus the message
actually sent (none when no rule matched or the client is missing).
`rulesLoadFails` injects a storage error in the `SELECT ... FROM
auto_replies`; the surrounding `catch` logs and returns `false`. -/
def checkAutoReply (fromMe : Bool) (body : List Char)
    (rules : List AutoReplyRule) (clientConnected : Bool)
    (rulesLoadFails : Bool) : KeywordOutcome :=
  if fromMe then ⟨false, none⟩
  else if rulesLoadFails then ⟨false, none⟩
  else
    match firstMatch body (rules.filter (·.isActive)) with
    | some r => ⟨true, if clientConnected then some r.replyMessage else none⟩
    | none => ⟨false, none⟩

/-- The `ai_settings` row for a device.  `apiKey`, `excludedContacts`,
`onlyWhenContains` and `fallbackMessage` are nullable columns checked
for JS truthiness, so `none` stands for NULL or the empty string. -/
structure AISettings where
  isEnabled : Bool
  apiKey : Option String
  ignoreGroups : Bool
  excludedContacts : Option (List Char)
  onlyWhenContains : Option (List Char)
  replyDelaySeconds : Nat
  fallbackMessage : Option String
deriving DecidableEq, Repr

/-- The AI provider call's outcome: a completion text, or a thrown
`ProviderError` (non-2xx response or no candidates). -/
inductive AIOutcome
  | success (reply : String)
  | failure
deriving DecidableEq, Repr

/-- The observable side effects of one cascade run: outbound sends (in
order), `ai_conversations` rows appended, and `daily_usage` increments
attempted-and-applied (each with its kind). -/
structure CascadeEffects where
  sends : List String
  turnsAppended : Nat
  usageIncrements : List UsageKind
deriving DecidableEq, Repr

def noEffects : CascadeEffects := ⟨[], 0, []⟩

/-- Model of `excluded.some(e => senderNumber.includes(e))` where `excluded` is
the comma-split, trimmed `excluded_contacts` and `senderNumber` is
`msg.from.split('@')[0]`. -/
def excludedHit (excludedContacts sender : List Char) : Bool :=
  ((jsSplit ',' excludedContacts).map jsTrim).any
    (fun e => jsIncludes ((jsSplit '@' sender).headD []) e)

/-- Model of `!keywords.some(k => messageBody.includes(k))` where `keywords` is
the comma-split, trimmed, lower-cased `only_when_contains` and
`messageBody` is the lower-cased body. -/
def onlyWhenMiss (ow body : List Char) : Bool :=
  !(((jsSplit ',' ow).map (fun k => jsToLower (jsTrim k))).any
      (fun k => jsIncludes (jsToLower body) k))

/-- Model of `WhatsAppManager.checkAIAutoReply(msg, deviceId, userId)` as its
effects.  Guards in source order: self-authored, empty body, missing
`ai_settings` row, disabled or credential-less, group with
`ignore_groups`, excluded sender, `only_when_contains` miss.  Then the
provider call (`aiResult`): on a truthy completion the two conversation
turns are inserted and trimmed, and — if the client is connected — the
completion is sent and one `auto_reply` usage increment is attempted
(`quotaAllows` is whether that inner `checkAndUpdateUsage` increments or
throws the quota denial, which the inner `catch` swallows).  On a
thrown provider error the `catch` sends the configured
`fallback_message`, if any and if the client is connected. -/
def checkAIAutoReply (fromMe : Bool) (body sender : List Char)
    (ai : Option AISettings) (clientConnected : Bool) (aiResult : AIOutcome)
    (quotaAllows : Bool) : CascadeEffects :=
  if fromMe then noEffects
  else if jsTrim body == [] then noEffects
  else
    match ai with
    | none => noEffects
    | some s =>
      if !s.isEnabled || s.apiKey.isNone then noEffects
      else if jsIncludes sender (str "@g.us") && s.ignoreGroups then noEffects
      else if (match s.excludedContacts with
               | some ex => excludedHit ex sender
               | none => false) then noEffects
      else if (match s.onlyWhenContains with
               | some ow => onlyWhenMiss ow body
               | none => false) then noEffects
      else
        match aiResult with
        | .success reply =>
          if reply = "" then noEffects
          else if clientConnected then
            ⟨[reply], 2, if quotaAllows then [UsageKind.autoReply] else []⟩
          else ⟨[], 2, []⟩
        | .failure =>
          match s.fallbackMessage with
          | some f => if clientConnected then ⟨[f], 0, []⟩ else noEffects
          | none => noEffects

structure CascadeRun where
  effects : CascadeEffects
  keywordReplied : Bool
  aiInvoked : Bool
deriving DecidableEq, Repr

/-- The auto-reply part of `handleIncomingMessage`: run the keyword
check; only when it returned `false`, run the AI check. -/
def handleIncomingMessage (fromMe : Bool) (body sender : List Char)
    (rules : List AutoReplyRule) (rulesLoadFails : Bool)
    (ai : Option AISettings) (clientConnected : Bool) (aiResult : AIOutcome)
    (quotaAllows : Bool) : CascadeRun :=
  let kw := checkAutoReply fromMe body rules clientConnected rulesLoadFails
  if kw.replied then
    ⟨⟨kw.sent.toList, 0, []⟩, true, false⟩
  else
    ⟨checkAIAutoReply fromMe body sender ai clientConnected aiResult
      quotaAllows, false, true⟩

/-! ## Cascade lemmas -/

/-- The JS `startsWith` model agrees with list prefixhood. -/
theorem jsStartsWith_iff (pre hay : List Char) :
    jsStartsWith hay pre = true ↔ pre <+: hay := by
  induction pre generalizing hay with
  | nil => cases hay <;> simp [jsStartsWith]
  | cons p ps ih =>
    cases hay with
    | nil => simp [jsStartsWith]
    | cons h hs =>
      constructor
      · intro hsw
        simp only [jsStartsWith, Bool.and_eq_true, beq_iff_eq] at hsw
        exact List.cons_prefix_cons.mpr ⟨hsw.1.symm, (ih hs).mp hsw.2⟩
      · intro hpre
        obtain ⟨he, hp⟩ := List.cons_prefix_cons.mp hpre
        simp only [jsStartsWith, Bool.and_eq_true, beq_iff_eq]
        exact ⟨he.symm, (ih hs).mpr hp⟩

/-- The JS `includes` model agrees with list infixhood. -/
theorem jsIncludes_iff (needle hay : List Char) :
    jsIncludes hay needle = true ↔ needle <:+: hay := by
  induction hay with
  | nil => simp [jsIncludes, List.isEmpty_iff]
  | cons h t ih =>
    simp [jsIncludes, jsStartsWith_iff, ih, List.infix_cons_iff]

/-- The JS `endsWith` model agrees with list suffixhood. -/
theorem jsEndsWith_iff (suf hay : List Char) :
    jsEndsWith hay suf = true ↔ suf <:+ hay := by
  unfold jsEndsWith
  rw [jsStartsWith_iff]
  exact List.reverse_prefix

/-- The match-type semantics of `ruleMatches`, spelled out: `exact` is
full equality of the lower-cased strings, `contains` / `starts_with` /
`ends_with` are infix / prefix / suffix of the lower-cased strings, and
any other stored `match_type` never matches. -/
theorem ruleMatches_iff (body : List Char) (r : AutoReplyRule) :
    ruleMatches body r = true ↔
      ((r.matchType = "exact" ∧ jsToLower body = jsToLower r.triggerKeyword) ∨
       (r.matchType = "contains" ∧
         jsToLower r.triggerKeyword <:+: jsToLower body) ∨
       (r.matchType = "starts_with" ∧
         jsToLower r.triggerKeyword <+: jsToLower body) ∨
       (r.matchType = "ends_with" ∧
         jsToLower r.triggerKeyword <:+ jsToLower body)) := by
  by_cases h1 : r.matchType = "exact"
  · simp [ruleMatches, h1]
  · by_cases h2 : r.matchType = "contains"
    · simp [ruleMatches, h1, h2, jsIncludes_iff]
    · by_cases h3 : r.matchType = "starts_with"
      · simp [ruleMatches, h1, h2, h3, jsStartsWith_iff]
      · by_cases h4 : r.matchType = "ends_with"
        · simp [ruleMatches, h1, h2, h3, h4, jsEndsWith_iff]
        · simp [ruleMatches, h1, h2, h3, h4]

/-- The scan `firstMatch` really is first-match: it returns a rule at some
position `i` that matches, such that every earlier rule fails the
predicate. -/
theorem firstMatch_spec (body : List Char) (l : List AutoReplyRule)
    (r : AutoReplyRule) (h : firstMatch body l = some r) :
    ∃ i : Fin l.length, l.get i = r ∧ ruleMatches body r = true ∧
      ∀ j : Fin l.length, (j : Nat) < (i : Nat) →
        ruleMatches body (l.get j) = false := by
  induction l with
  | nil => simp [firstMatch] at h
  | cons a t ih =>
    by_cases ha : ruleMatches body a = true
    · have hr : a = r := by simpa [firstMatch, ha] using h
      refine ⟨⟨0, by simp⟩, hr, hr ▸ ha, ?_⟩
      rintro ⟨jv, hj⟩ hlt
      simp only [Fin.val_mk] at hlt
      omega
    · have h' : firstMatch body t = some r := by
        simpa [firstMatch, ha] using h
      obtain ⟨i, hget, hmatch, hprev⟩ := ih h'
      have hib := i.isLt
      refine ⟨⟨(i : Nat) + 1, by simp only [List.length_cons]; omega⟩,
        hget, hmatch, ?_⟩
      rintro ⟨jv, hj⟩ hlt
      simp only [Fin.val_mk] at hlt
      cases jv with
      | zero =>
        simpa using (Bool.not_eq_true _).mp ha
      | succ k =>
        have hk : k < t.length := by simpa using hj
        have := hprev ⟨k, hk⟩ (by simpa using hlt)
        simpa using this

/-- The §8 precedence scenario's two stored rules, with the result set
arriving in creation order (ids 1, 2): the `contains "hi"` rule created
first, the `exact "hi there"` rule created second. -/
def scenarioRules : List AutoReplyRule :=
  [⟨1, str "hi", "contains", "first reply", true⟩,
   ⟨2, str "hi there", "exact", "second reply", true⟩]

/-- The same two stored rules with the result set arriving in the other
physical order (ids 2, 1) — reachable because the `SELECT` has no
`ORDER BY` and the update/toggle routes rewrite rows in place,
relocating tuples. -/
def scenarioRulesRelocated : List AutoReplyRule :=
  [⟨2, str "hi there", "exact", "second reply", true⟩,
   ⟨1, str "hi", "contains", "first reply", true⟩]

/-- C3 counterexample: the cascade does not evaluate rules in stable
creation order — it evaluates them in whatever order the unordered
`SELECT` returns.  The very same two stored rules, delivered in the two
possible result orders, make the cascade send different replies on body
`"hi there"`: in creation order the `contains` rule fires, in the
relocated order the later-created `exact` rule fires.  So the claimed
creation-order scenario outcome is not a guarantee of the program. -/
theorem keyword_order_not_guaranteed :
    scenarioRulesRelocated.Perm scenarioRules ∧
    scenarioRulesRelocated.map (·.id) = [2, 1] ∧
    scenarioRules.map (·.id) = [1, 2] ∧
    checkAutoReply false (str "hi there") scenarioRulesRelocated true false =
      ⟨true, some "second reply"⟩ ∧
    checkAutoReply false (str "hi there") scenarioRules true false =
      ⟨true, some "first reply"⟩ ∧
    (⟨true, some "second reply"⟩ : KeywordOutcome) ≠
      ⟨true, some "first reply"⟩ := by
  decide

/-- C3 (amended): for an inbound non-self message the cascade scans the
device's active rules in the order the (unordered) `SELECT` returns
them — the program guarantees no stable creation order — comparing the
lower-cased body with the lower-cased trigger under the rule's match
type (`exact` = equality, `contains` = infix, `starts_with` = prefix,
`ends_with` = suffix); the first matching rule of the result order
sends its `replyMessage` verbatim and the AI path is not invoked.  For
the stored rules `[contains "hi", exact "hi there"]` and body
`"hi there"`, the `contains` rule fires when the result set arrives in
creation order. -/
theorem keyword_cascade_first_match (body sender : List Char)
    (rules : List AutoReplyRule) (ai : Option AISettings)
    (aiResult : AIOutcome) (q : Bool) (r : AutoReplyRule)
    (h : firstMatch body (rules.filter (·.isActive)) = some r) :
    (∃ i : Fin (rules.filter (·.isActive)).length,
      (rules.filter (·.isActive)).get i = r ∧ ruleMatches body r = true ∧
      ∀ j : Fin (rules.filter (·.isActive)).length, (j : Nat) < (i : Nat) →
        ruleMatches body ((rules.filter (·.isActive)).get j) = false) ∧
    r.isActive = true ∧
    (∀ rule : AutoReplyRule, ruleMatches body rule = true ↔
      ((rule.matchType = "exact" ∧
          jsToLower body = jsToLower rule.triggerKeyword) ∨
       (rule.matchType = "contains" ∧
          jsToLower rule.triggerKeyword <:+: jsToLower body) ∨
       (rule.matchType = "starts_with" ∧
          jsToLower rule.triggerKeyword <+: jsToLower body) ∨
       (rule.matchType = "ends_with" ∧
          jsToLower rule.triggerKeyword <:+ jsToLower body))) ∧
    (handleIncomingMessage false body sender rules false ai true aiResult
        q).effects.sends = [r.replyMessage] ∧
    (handleIncomingMessage false body sender rules false ai true aiResult
        q).aiInvoked = false ∧
    (handleIncomingMessage false (str "hi there") sender scenarioRules false
        ai true aiResult q).effects.sends = ["first reply"] ∧
    (handleIncomingMessage false (str "hi there") sender scenarioRules false
        ai true aiResult q).aiInvoked = false := by
  have hspec := firstMatch_spec body (rules.filter (·.isActive)) r h
  have hmem : r ∈ rules.filter (·.isActive) := by
    obtain ⟨i, hget, -, -⟩ := hspec
    exact hget ▸ List.get_mem _ i.1 i.2
  have hscen : checkAutoReply false (str "hi there") scenarioRules true
      false = ⟨true, some "first reply"⟩ := by decide
  refine ⟨hspec, (List.mem_filter.mp hmem).2, fun rule => ruleMatches_iff body rule,
    ?_, ?_, ?_, ?_⟩
  · simp [handleIncomingMessage, checkAutoReply, h]
  · simp [handleIncomingMessage, checkAutoReply, h]
  · simp [handleIncomingMessage, hscen]
  · simp [handleIncomingMessage, hscen]

/-- Witness for C3: the §8 precedence scenario with the result set in
creation order — the first-listed `contains` rule beats the
second-listed `exact` rule on body `"hi there"` and the AI path is
skipped. -/
theorem keyword_cascade_first_match_witness :
    (handleIncomingMessage false (str "hi there") (str "123@c.us")
        scenarioRules false none true .failure true).effects.sends =
      ["first reply"] ∧
    (handleIncomingMessage false (str "hi there") (str "123@c.us")
        scenarioRules false none true .failure true).aiInvoked = false := by
  have h := keyword_cascade_first_match (str "hi there") (str "123@c.us")
    scenarioRules none .failure true
    ⟨1, str "hi", "contains", "first reply", true⟩ (by decide)
  exact ⟨h.2.2.2.2.2.1, h.2.2.2.2.2.2⟩

/-- Frame conditions of the AI fallback alone: at most one send, at most
two conversation-turn appends, and the only usage increment it can make
is a single `auto_reply` one, which happens exactly on the
AI-success-and-sent path when the quota allows. -/
theorem checkAIAutoReply_frame (fromMe : Bool) (body sender : List Char)
    (ai : Option AISettings) (connected : Bool) (aiResult : AIOutcome)
    (q : Bool) :
    (checkAIAutoReply fromMe body sender ai connected aiResult q).sends.length ≤ 1 ∧
    (checkAIAutoReply fromMe body sender ai connected aiResult q).turnsAppended ≤ 2 ∧
    (checkAIAutoReply fromMe body sender ai connected aiResult q).usageIncrements.length ≤ 1 ∧
    (∀ k ∈ (checkAIAutoReply fromMe body sender ai connected aiResult q).usageIncrements,
      k = UsageKind.autoReply) ∧
    ((checkAIAutoReply fromMe body sender ai connected aiResult q).turnsAppended = 2 ∧
        connected = true ∧ q = true →
      (checkAIAutoReply fromMe body sender ai connected aiResult q).usageIncrements =
        [UsageKind.autoReply] ∧
      (checkAIAutoReply fromMe body sender ai connected aiResult q).sends.length = 1) := by
  unfold checkAIAutoReply noEffects
  repeat' split
  all_goals simp_all

/-- C7: one cascade run's side effects are at most one outbound send, at
most two `ai_conversations` appends, and at most one usage increment,
which can only be of the `auto_reply` kind; the keyword path performs no
increment and no append at all (keyword replies are un-metered), while
the AI path on a successful, delivered reply performs exactly one
`auto_reply` increment (when the quota check allows it). -/
theorem cascade_effect_frame (fromMe : Bool) (body sender : List Char)
    (rules : List AutoReplyRule) (fault : Bool) (ai : Option AISettings)
    (connected : Bool) (aiResult : AIOutcome) (q : Bool) :
    (handleIncomingMessage fromMe body sender rules fault ai connected
        aiResult q).effects.sends.length ≤ 1 ∧
    (handleIncomingMessage fromMe body sender rules fault ai connected
        aiResult q).effects.turnsAppended ≤ 2 ∧
    (handleIncomingMessage fromMe body sender rules fault ai connected
        aiResult q).effects.usageIncrements.length ≤ 1 ∧
    (∀ k ∈ (handleIncomingMessage fromMe body sender rules fault ai connected
        aiResult q).effects.usageIncrements, k = UsageKind.autoReply) ∧
    ((handleIncomingMessage fromMe body sender rules fault ai connected
        aiResult q).keywordReplied = true →
      (handleIncomingMessage fromMe body sender rules fault ai connected
          aiResult q).effects.usageIncrements = [] ∧
      (handleIncomingMessage fromMe body sender rules fault ai connected
          aiResult q).effects.turnsAppended = 0) ∧
    ((handleIncomingMessage fromMe body sender rules fault ai connected
        aiResult q).effects.turnsAppended = 2 →
      (handleIncomingMessage fromMe body sender rules fault ai connected
          aiResult q).keywordReplied = false) ∧
    ((handleIncomingMessage fromMe body sender rules fault ai connected
        aiResult q).effects.turnsAppended = 2 ∧ connected = true ∧ q = true →
      (handleIncomingMessage fromMe body sender rules fault ai connected
          aiResult q).effects.usageIncrements = [UsageKind.autoReply] ∧
      (handleIncomingMessage fromMe body sender rules fault ai connected
          aiResult q).effects.sends.length = 1) := by
  have hai := checkAIAutoReply_frame fromMe body sender ai connected aiResult q
  by_cases hkw : (checkAutoReply fromMe body rules connected fault).replied = true
  · refine ⟨?_, ?_, ?_, ?_, ?_, ?_, ?_⟩ <;>
      simp [handleIncomingMessage, hkw]
    cases (checkAutoReply fromMe body rules connected fault).sent <;> simp
  · refine ⟨?_, ?_, ?_, ?_, ?_, ?_, ?_⟩ <;>
      simp only [handleIncomingMessage, hkw, if_false, Bool.false_eq_true]
    · exact hai.1
    · exact hai.2.1
    · exact hai.2.2.1
    · exact hai.2.2.2.1
    · intro hcontr; exact hcontr.elim
    · intro _; trivial
    · exact hai.2.2.2.2

/-- Witness for C7: a delivered AI success reply is billed exactly one
`auto_reply` increment. -/
theorem cascade_effect_frame_witness :
    (handleIncomingMessage false (str "hello") (str "123@c.us") [] false
        (some ⟨true, some "key", false, none, none, 0, none⟩) true
        (.success "completion") true).effects.usageIncrements =
      [UsageKind.autoReply] ∧
    (handleIncomingMessage false (str "hello") (str "123@c.us") [] false
        (some ⟨true, some "key", false, none, none, 0, none⟩) true
        (.success "completion") true).effects.sends.length = 1 := by
  exact (cascade_effect_frame false (str "hello") (str "123@c.us") [] false
    (some ⟨true, some "key", false, none, none, 0, none⟩) true
    (.success "completion") true).2.2.2.2.2.2 ⟨by decide, rfl, rfl⟩

/-- C10: when the `auto_replies` `SELECT` (or the rule scan) throws, the
`catch` in `checkAutoReply` swallows the error and returns `false` —
exactly the no-rule-matched outcome — so `handleIncomingMessage` falls
through to the AI step with unchanged behaviour, and no error reaches
the inbound handler. -/
theorem rules_load_failure_falls_through (body sender : List Char)
    (rules : List AutoReplyRule) (connected : Bool) (ai : Option AISettings)
    (aiResult : AIOutcome) (q : Bool) :
    checkAutoReply false body rules connected true = ⟨false, none⟩ ∧
    checkAutoReply false body rules connected true =
      checkAutoReply false body [] connected false ∧
    (handleIncomingMessage false body sender rules true ai connected
        aiResult q).aiInvoked = true ∧
    (handleIncomingMessage false body sender rules true ai connected
        aiResult q).effects =
      checkAIAutoReply false body sender ai connected aiResult q := by
  refine ⟨rfl, rfl, ?_, ?_⟩ <;>
    simp [handleIncomingMessage, checkAutoReply]

/-! ## `SchedulerService` and the `scheduled_messages` state machine

`scheduled_messages.status` defaults to `'pending'` (migration), moves
to `'sent'`, `'failed'` or `'cancelled'`, and every mutating statement
filters on the current status.  Timestamps are `Nat`s; row ids come from
a `SERIAL` primary key, so a table carries pairwise-distinct ids. -/

inductive MsgStatus
  | pending
  | sent
  | failed
  | cancelled
deriving DecidableEq, Repr

structure ScheduledMessage where
  id : Nat
  deviceId : Nat
  scheduledAt : Nat
  status : MsgStatus
  sentAt : Option Nat
  errorMessage : Option String
deriving DecidableEq, Repr

/-- Model of `SchedulerService.scheduleMessage`: the `INSERT` leaves `status` to
its `DEFAULT 'pending'`. -/
def scheduleMessage (tbl : List ScheduledMessage) (msgId devId at' : Nat) :
    List ScheduledMessage :=
  tbl ++ [⟨msgId, devId, at', .pending, none, none⟩]

/-- One row under `UPDATE scheduled_messages SET status = 'cancelled'
WHERE id = $1 AND device_id = $2 AND status = 'pending'`. -/
def cancelRow (msgId devId : Nat) (m : ScheduledMessage) : ScheduledMessage :=
  if m.id = msgId ∧ m.deviceId = devId ∧ m.status = .pending then
    { m with status := .cancelled }
  else m

/-- Model of `SchedulerService.cancelScheduledMessage(messageId, deviceId)`. -/
def cancelScheduledMessage (tbl : List ScheduledMessage)
    (msgId devId : Nat) : List ScheduledMessage :=
  tbl.map (cancelRow msgId devId)

/-- The batch `SELECT` of `processScheduledMessages`: `pending` rows due
by `now`, ordered by `scheduled_at` ascending, `LIMIT 10`. -/
def dueBatch (tbl : List ScheduledMessage) (now : Nat) :
    List ScheduledMessage :=
  ((tbl.filter (fun m => m.status == .pending && decide (m.scheduledAt ≤ now))).mergeSort
    (fun a b => decide (a.scheduledAt ≤ b.scheduledAt))).take 10

/-- One selected row's outcome: not connected → `failed` with `"Device
not connected"` and no send attempt; otherwise `sendMessage` is
attempted — success → `sent` with `sent_at = now`, a thrown error →
`failed` with the error's message. -/
def promoteRow (connected sendOk : Nat → Bool) (now : Nat)
    (m : ScheduledMessage) : ScheduledMessage :=
  if connected m.deviceId = false then
    { m with status := .failed, errorMessage := some "Device not connected" }
  else if sendOk m.id then
    { m with status := .sent, sentAt := some now }
  else
    { m with status := .failed, errorMessage := some "send error" }

/-- The ids for which the runner actually calls `sendMessage`: the
selected rows whose device is connected. -/
def attemptedSends (batch : List ScheduledMessage)
    (connected : Nat → Bool) : List Nat :=
  (batch.filter (fun m => connected m.deviceId)).map (·.id)

/-- Model of `SchedulerService.processScheduledMessages` on one tick:
select the due batch, update each selected row by id, and record which
rows had a send attempted. -/
def processScheduledMessages (tbl : List ScheduledMessage) (now : Nat)
    (connected sendOk : Nat → Bool) :
    List ScheduledMessage × List Nat :=
  let batch := dueBatch tbl now
  let ids := batch.map (·.id)
  (tbl.map (fun m =>
     if ids.contains m.id then promoteRow connected sendOk now m else m),
   attemptedSends batch connected)

/-- Every row of the due batch is a `pending`, due row of the table. -/
theorem dueBatch_mem (tbl : List ScheduledMessage) (now : Nat)
    (m : ScheduledMessage) (hm : m ∈ dueBatch tbl now) :
    m ∈ tbl ∧ m.status = .pending ∧ m.scheduledAt ≤ now := by
  unfold dueBatch at hm
  have h1 := List.take_subset 10 _ hm
  have h2 := List.mem_mergeSort.mp h1
  have h3 := List.mem_filter.mp h2
  refine ⟨h3.1, ?_, ?_⟩
  · have := h3.2
    simp only [Bool.and_eq_true, beq_iff_eq, decide_eq_true_eq] at this
    exact this.1
  · have := h3.2
    simp only [Bool.and_eq_true, beq_iff_eq, decide_eq_true_eq] at this
    exact this.2

/-- The update `promoteRow` never changes the row id. -/
theorem promoteRow_id (connected sendOk : Nat → Bool) (now : Nat)
    (m : ScheduledMessage) : (promoteRow connected sendOk now m).id = m.id := by
  unfold promoteRow
  split
  · rfl
  · split <;> rfl

/-- One tick preserves the table's ids (in order). -/
theorem processScheduledMessages_ids (tbl : List ScheduledMessage)
    (now : Nat) (connected sendOk : Nat → Bool) :
    (processScheduledMessages tbl now connected sendOk).1.map (·.id) =
      tbl.map (·.id) := by
  unfold processScheduledMessages
  rw [List.map_map]
  refine List.map_congr_left fun m _ => ?_
  simp only [Function.comp_apply]
  split
  · exact promoteRow_id connected sendOk now m
  · rfl

/-- A row in a terminal status shares its id with no row of the due
batch (ids are unique table-wide). -/
theorem terminal_id_not_selected (tbl : List ScheduledMessage) (now : Nat)
    (hids : (tbl.map (·.id)).Nodup) (m : ScheduledMessage) (hm : m ∈ tbl)
    (hterm : m.status ≠ .pending) :
    m.id ∉ (dueBatch tbl now).map (·.id) := by
  intro hin
  obtain ⟨m', hm', hid⟩ := List.mem_map.mp hin
  obtain ⟨hm't, hm'p, -⟩ := dueBatch_mem tbl now m' hm'
  have := List.inj_on_of_nodup_map hids hm't hm hid
  exact hterm (this ▸ hm'p)

/-- A terminal row survives one tick unchanged and is never among the
attempted sends. -/
theorem terminal_row_untouched (tbl : List ScheduledMessage) (now : Nat)
    (connected sendOk : Nat → Bool)
    (hids : (tbl.map (·.id)).Nodup) (m : ScheduledMessage) (hm : m ∈ tbl)
    (hterm : m.status ≠ .pending) :
    m ∈ (processScheduledMessages tbl now connected sendOk).1 ∧
    m.id ∉ (processScheduledMessages tbl now connected sendOk).2 := by
  have hnotsel := terminal_id_not_selected tbl now hids m hm hterm
  constructor
  · refine List.mem_map.mpr ⟨m, hm, ?_⟩
    have : ((dueBatch tbl now).map (·.id)).contains m.id = false := by
      rw [List.contains_eq_any_beq]
      simp only [List.any_eq_false]
      intro x hx
      simp only [beq_iff_eq]
      intro hxm
      exact hnotsel (hxm ▸ hx)
    simp only [this, Bool.false_eq_true, if_false]
  · intro hatt
    unfold processScheduledMessages attemptedSends at hatt
    simp only at hatt
    obtain ⟨m', hm', hid⟩ := List.mem_map.mp hatt
    exact hnotsel (List.mem_map.mpr ⟨m', List.mem_of_mem_filter hm', hid⟩)

/-- The fresh table of the C6 witness: one pending row (id 1) and one
already-sent row (id 2). -/
def schedTbl0 : List ScheduledMessage :=
  [⟨1, 1, 0, .pending, none, none⟩, ⟨2, 1, 0, .sent, some 0, none⟩]

/-- C6: `scheduled_messages` rows are created `pending`; `cancel` moves
a row to `cancelled` only while it is `pending` and for the matching
(id, device), and is the identity on terminal rows; one tick promotes a
selected row to `sent` or to `failed` only (with `"Device not
connected"` recorded and no send attempted when the device is offline,
and sends attempted only for connected pending rows); a terminal row is
left untouched by a tick and its id is never among the attempted sends —
in particular a re-run of the poll loop after a tick never re-sends a
row the first tick (or anything else) left in a terminal state. -/
theorem scheduled_message_lifecycle (tbl : List ScheduledMessage)
    (now now2 : Nat) (connected sendOk connected2 sendOk2 : Nat → Bool)
    (msgId devId : Nat)
    (hids : (tbl.map (·.id)).Nodup) :
    (∀ i d at' m, m ∈ scheduleMessage tbl i d at' →
      m ∈ tbl ∨ m.status = .pending) ∧
    (∀ m ∈ tbl, m.status ≠ .pending → cancelRow msgId devId m = m) ∧
    (∀ m ∈ tbl, m.status = .pending → m.id = msgId → m.deviceId = devId →
      cancelRow msgId devId m = { m with status := .cancelled }) ∧
    (∀ m : ScheduledMessage,
      (promoteRow connected sendOk now m).status = .sent ∨
      (promoteRow connected sendOk now m).status = .failed) ∧
    (∀ m : ScheduledMessage, connected m.deviceId = false →
      promoteRow connected sendOk now m =
        { m with status := .failed,
                 errorMessage := some "Device not connected" }) ∧
    (∀ mid ∈ (processScheduledMessages tbl now connected sendOk).2,
      ∃ m ∈ dueBatch tbl now, m.id = mid ∧ connected m.deviceId = true ∧
        m.status = .pending) ∧
    (∀ m ∈ tbl, m.status ≠ .pending →
      m ∈ (processScheduledMessages tbl now connected sendOk).1 ∧
      m.id ∉ (processScheduledMessages tbl now connected sendOk).2) ∧
    (∀ m ∈ (processScheduledMessages tbl now connected sendOk).1,
      m.status ≠ .pending →
      m.id ∉ (processScheduledMessages
        (processScheduledMessages tbl now connected sendOk).1
        now2 connected2 sendOk2).2) := by
  refine ⟨?_, ?_, ?_, ?_, ?_, ?_, ?_, ?_⟩
  · intro i d at' m hm
    rcases List.mem_append.mp hm with h | h
    · exact Or.inl h
    · simp only [List.mem_singleton] at h
      exact Or.inr (by rw [h])
  · intro m _ hterm
    unfold cancelRow
    rw [if_neg]
    exact fun hc => hterm hc.2.2
  · intro m _ hpend hid hdev
    unfold cancelRow
    rw [if_pos ⟨hid, hdev, hpend⟩]
  · intro m
    unfold promoteRow
    split
    · exact Or.inr rfl
    · split
      · exact Or.inl rfl
      · exact Or.inr rfl
  · intro m hconn
    unfold promoteRow
    rw [if_pos hconn]
  · intro mid hmid
    unfold processScheduledMessages attemptedSends at hmid
    simp only at hmid
    obtain ⟨m, hm, hid⟩ := List.mem_map.mp hmid
    have h1 := List.mem_filter.mp hm
    obtain ⟨-, hpend, -⟩ := dueBatch_mem tbl now m h1.1
    exact ⟨m, h1.1, hid, h1.2, hpend⟩
  · intro m hm hterm
    exact terminal_row_untouched tbl now connected sendOk hids m hm hterm
  · intro m hm hterm
    have hids' : ((processScheduledMessages tbl now connected sendOk).1.map
        (·.id)).Nodup := by
      rw [processScheduledMessages_ids]; exact hids
    exact (terminal_row_untouched _ now2 connected2 sendOk2 hids' m hm hterm).2

/-- Witness for C6: with one pending and one already-sent row, a tick
leaves the sent row in place and does not attempt to send it. -/
theorem scheduled_message_lifecycle_witness :
    (⟨2, 1, 0, .sent, some 0, none⟩ : ScheduledMessage) ∈
      (processScheduledMessages schedTbl0 5 (fun _ => true)
        (fun _ => true)).1 ∧
    2 ∉ (processScheduledMessages schedTbl0 5 (fun _ => true)
      (fun _ => true)).2 := by
  exact (scheduled_message_lifecycle schedTbl0 5 5 (fun _ => true)
    (fun _ => true) (fun _ => true) (fun _ => true) 1 1 (by decide)).2.2.2.2.2.2.1
    ⟨2, 1, 0, .sent, some 0, none⟩ (by decide) (by decide)

/-! ## ConversationContext: the per-chat `ai_conversations` history

Rows for one (device, chat) pair, listed in ascending `created_at`
order (appends happen at `NOW()`, so insertion order is chronological).
After inserting the `user` and `assistant` turns, `checkAIAutoReply`
deletes every row beyond the first 50 of `ORDER BY created_at DESC` —
i.e. keeps the 50 newest. -/

inductive Role
  | user
  | assistant
deriving DecidableEq, Repr

structure ConvTurn where
  role : Role
  content : String
  createdAt : Nat
deriving DecidableEq, Repr

/-- The cleanup `DELETE ... ORDER BY created_at DESC OFFSET 50`: keep
the first 50 of the reversed (newest-first) list. -/
def trimConv (l : List ConvTurn) : List ConvTurn :=
  (l.reverse.take 50).reverse

/-- One AI-success append: insert the inbound body as a `user` turn and
the completion as an `assistant` turn (at the next two timestamps),
then trim. -/
def appendAITurns (l : List ConvTurn) (t : Nat) (userMsg aiResp : String) :
    List ConvTurn :=
  trimConv (l ++ [⟨.user, userMsg, t⟩, ⟨.assistant, aiResp, t + 1⟩])

/-- The full, untrimmed chronological turn sequence of a run of
appends starting at timestamp `t`. -/
def allTurns : Nat → List (String × String) → List ConvTurn
  | _, [] => []
  | t, p :: ps =>
    ⟨.user, p.1, t⟩ :: ⟨.assistant, p.2, t + 1⟩ :: allTurns (t + 2) ps

/-- A sequence of append-and-trim operations on one (device, chat)
history. -/
def runAppends : List ConvTurn → Nat → List (String × String) →
    List ConvTurn
  | l, _, [] => l
  | l, t, p :: ps => runAppends (appendAITurns l t p.1 p.2) (t + 2) ps

/-- Trimming a trimmed-then-extended history is the same as trimming
the extended history: no turn that would survive is ever lost early. -/
theorem trimConv_append (m y : List ConvTurn) :
    trimConv (trimConv m ++ y) = trimConv (m ++ y) := by
  unfold trimConv
  rw [List.reverse_append, List.reverse_reverse, List.reverse_append]
  congr 1
  rw [List.take_append_eq_append_take, List.take_append_eq_append_take,
    List.take_take]
  congr 2
  omega

theorem trimConv_idem (l : List ConvTurn) :
    trimConv (trimConv l) = trimConv l := by
  have h := trimConv_append l []
  simpa using h

theorem trimConv_length (l : List ConvTurn) :
    (trimConv l).length = min l.length 50 := by
  simp [trimConv, Nat.min_comm]

/-- A run of append-and-trim operations ends in exactly the trim of the
whole untrimmed sequence. -/
theorem runAppends_eq (ps : List (String × String)) (l : List ConvTurn)
    (t : Nat) (hl : trimConv l = l) :
    runAppends l t ps = trimConv (l ++ allTurns t ps) := by
  induction ps generalizing l t with
  | nil => simp [runAppends, allTurns, hl]
  | cons p ps ih =>
    simp only [runAppends, allTurns]
    rw [ih (appendAITurns l t p.1 p.2) (t + 2) (trimConv_idem _),
      appendAITurns, trimConv_append]
    congr 1
    simp

/-- C8: each append of a (user, assistant) turn pair to a (device, chat)
conversation is immediately pruned to the 50 most recent turns by
`created_at`, so the history length never exceeds 50, a run of appends
keeps exactly the newest-50 suffix of the full turn sequence, and after
60 sequential appends (30 AI replies) to the same chat exactly 50 turns
remain — the 50 most recent, every surviving turn newer than every
pruned one. -/
theorem conversation_trim (l : List ConvTurn) (t : Nat)
    (userMsg aiResp : String) (ps : List (String × String)) :
    appendAITurns l t userMsg aiResp =
      trimConv (l ++ [⟨.user, userMsg, t⟩, ⟨.assistant, aiResp, t + 1⟩]) ∧
    (appendAITurns l t userMsg aiResp).length ≤ 50 ∧
    runAppends [] t ps = trimConv (allTurns t ps) ∧
    (runAppends [] 0 (List.replicate 30 ("u", "a"))).length = 50 ∧
    runAppends [] 0 (List.replicate 30 ("u", "a")) =
      (allTurns 0 (List.replicate 30 ("u", "a"))).drop 10 ∧
    (∀ x ∈ (allTurns 0 (List.replicate 30 ("u", "a"))).take 10,
      ∀ y ∈ runAppends [] 0 (List.replicate 30 ("u", "a")),
        x.createdAt < y.createdAt) := by
  refine ⟨rfl, ?_, ?_, by decide, by decide, by decide⟩
  · rw [appendAITurns, trimConv_length]
    omega
  · have h := runAppends_eq ps [] t rfl
    simpa using h

/-- Witness for C8: the 60-append scenario leaves exactly 50 turns. -/
theorem conversation_trim_witness :
    (runAppends [] 0 (List.replicate 30 ("u", "a"))).length = 50 := by
  exact (conversation_trim [] 0 "u" "a" []).2.2.2.1

end Waaii
